import Mathlib

/-!
Verification of the performance-tracking / dynamic-selection core of the
futurefailure trading repository (performance_tracker.py, stock_selector.py,
config.py), as a shallow embedding: Python floats are modelled as exact
rationals, dicts as insertion-ordered association lists, the JSON data file
as an explicit document value, and `datetime.now()` / filesystem state as
explicit parameters.
-/

/-- JSON-like document values: what `json.dump` / `json.load` exchange with
the backing file. Timestamps are serialized by the source via `isoformat()`,
an injective rendering with exact parse-back at microsecond precision; they
are modelled here by their numeric epoch value. -/
inductive Json where
  | null
  | bool (b : Bool)
  | num (q : ℚ)
  | str (s : String)
  | arr (items : List Json)
  | obj (fields : List (String × Json))

/-- Whether a JSON value is the string "strategy_stats" (Python equality of a
list element against that string). -/
def Json.isStrategyStatsStr : Json → Bool
  | .str s => s = "strategy_stats"
  | _ => false

/-- Whether an object value has the given top-level key. -/
def Json.hasKey (j : Json) (k : String) : Bool :=
  match j with
  | .obj fields => fields.any (fun kv => kv.1 = k)
  | _ => false

/-- Python substring containment (`pat in s` for strings), over char lists. -/
def substrMem (pat s : List Char) : Bool :=
  (List.range (s.length + 1)).any fun i => (s.drop i).take pat.length = pat

/-- The Python membership test `'strategy_stats' in data` from load_data:
key lookup on dicts, element equality on lists, substring test on strings,
and a TypeError (modelled as `.error`) on the remaining JSON values. -/
def membershipTestStrategyStats : Json → Except Unit Bool
  | .obj fields => .ok (fields.any (fun kv => kv.1 = "strategy_stats"))
  | .arr items => .ok (items.any Json.isStrategyStatsStr)
  | .str s => .ok (substrMem "strategy_stats".toList s.toList)
  | _ => .error ()

/-- The states of the backing data file that load_data can encounter. -/
inductive Store where
  | absent
  | unreadable
  | unparsable
  | doc (j : Json)

/-- The empty in-memory structure load_data initializes when the store is
absent or rejected: `{'trades': [], 'strategy_stats': {}}`. -/
def emptyDoc : Json :=
  .obj [("trades", .arr []), ("strategy_stats", .obj [])]

/-- load_data from performance_tracker.py: returns the parsed document when
the parse succeeded and `'strategy_stats' in data` held; every other outcome
(missing file, open/parse failure, failed or erroring membership test) falls
through to the empty structure. The bare `except: pass` makes this total. -/
def load_data : Store → Json
  | .doc j =>
    match membershipTestStrategyStats j with
    | .ok true => j
    | _ => emptyDoc
  | _ => emptyDoc

/-- One completed trade as record_trade builds it (the dict of line 56-69);
`timestamp` models `datetime.now().isoformat()`, `win` is `pnl_percent > 0`. -/
structure TradeRecord where
  timestamp : ℚ
  strategy : String
  symbol : String
  direction : String
  entry_price : ℚ
  exit_price : ℚ
  entry_time : ℚ
  exit_time : ℚ
  pnl_percent : ℚ
  hold_time_hours : ℚ
  signal_strength : ℚ
  win : Bool
  deriving DecidableEq

/-- Per-(strategy, symbol) aggregate statistics. -/
structure AggStats where
  total_trades : Nat
  winning_trades : Nat
  total_pnl : ℚ
  avg_hold_time : ℚ
  deriving DecidableEq

/-- The tracker's in-memory state `self.performance_data`: the ordered trade
list and the nested strategy → symbol → stats dicts, modelled as
insertion-ordered association lists (Python dict semantics). -/
structure PerfData where
  trades : List TradeRecord
  strategy_stats : List (String × List (String × AggStats))
  deriving DecidableEq

def emptyPerfData : PerfData := ⟨[], []⟩

/-- Python dict lookup `m.get(k)` on an insertion-ordered association list. -/
def lookupA {α : Type} : List (String × α) → String → Option α
  | [], _ => none
  | (k, v) :: rest, key => if k = key then some v else lookupA rest key

/-- Python dict assignment `m[k] = v`: replaces the value in place when the
key exists, appends at the end otherwise. -/
def insertA {α : Type} : List (String × α) → String → α → List (String × α)
  | [], key, v => [(key, v)]
  | (k, w) :: rest, key, v =>
    if k = key then (k, v) :: rest else (k, w) :: insertA rest key v

/-- The stats record for a pair, with the zero record the source creates on
first touch (lines 77-83) when the pair is absent. -/
def getStats (d : PerfData) (strategy_name symbol : String) : AggStats :=
  (lookupA ((lookupA d.strategy_stats strategy_name).getD []) symbol).getD ⟨0, 0, 0, 0⟩

/-- Serialization of a trade dict (the exact key layout json.dump writes). -/
def encodeTrade (t : TradeRecord) : Json :=
  .obj [("timestamp", .num t.timestamp), ("strategy", .str t.strategy),
        ("symbol", .str t.symbol), ("direction", .str t.direction),
        ("entry_price", .num t.entry_price), ("exit_price", .num t.exit_price),
        ("entry_time", .num t.entry_time), ("exit_time", .num t.exit_time),
        ("pnl_percent", .num t.pnl_percent), ("hold_time_hours", .num t.hold_time_hours),
        ("signal_strength", .num t.signal_strength), ("win", .bool t.win)]

/-- Serialization of a stats dict. -/
def encodeStats (s : AggStats) : Json :=
  .obj [("total_trades", .num s.total_trades), ("winning_trades", .num s.winning_trades),
        ("total_pnl", .num s.total_pnl), ("avg_hold_time", .num s.avg_hold_time)]

/-- Serialization of the symbol → stats dict of one strategy. -/
def encodeSymbolStats (m : List (String × AggStats)) : Json :=
  .obj (m.map fun kv => (kv.1, encodeStats kv.2))

/-- Serialization of the whole performance_data dict: what save_data hands
to json.dump. -/
def encodePerfData (d : PerfData) : Json :=
  .obj [("trades", .arr (d.trades.map encodeTrade)),
        ("strategy_stats", .obj (d.strategy_stats.map fun kv => (kv.1, encodeSymbolStats kv.2)))]

/-- What save_data did: wrote the document, or caught the write failure and
only printed a message (the `except Exception as e: print(...)` branch). -/
inductive SaveOutcome where
  | saved (doc : Json)
  | printedError

/-- save_data from performance_tracker.py, with the filesystem's willingness
to accept the write as the explicit `writable` parameter. It never raises:
any exception is caught and converted into a printed message. -/
def save_data (writable : Bool) (d : PerfData) : SaveOutcome :=
  if writable then .saved (encodePerfData d) else .printedError

/-- The one exception record_trade itself can raise: Python float division
by zero when `entry_price` is 0 (line 43/45). -/
inductive RecordError where
  | zeroDivisionError
  deriving DecidableEq

/-- The successful path of record_trade (entry_price ≠ 0): computes
pnl_percent by direction, hold time in hours, appends the trade record, and
updates (or creates) the aggregate stats with the incremental-mean formula of
line 90. `now` models `datetime.now()`. -/
def record_trade_apply (now : ℚ) (d : PerfData) (strategy_name symbol : String)
    (entry_price exit_price entry_time exit_time : ℚ)
    (direction : String) (signal_strength : ℚ) : PerfData :=
  let pnl_percent : ℚ :=
    if direction = "long" then (exit_price - entry_price) / entry_price
    else (entry_price - exit_price) / entry_price
  let hold_time_hours : ℚ := (exit_time - entry_time) / 3600
  let trade_record : TradeRecord :=
    ⟨now, strategy_name, symbol, direction, entry_price, exit_price, entry_time, exit_time,
     pnl_percent, hold_time_hours, signal_strength, decide (0 < pnl_percent)⟩
  let strat_map := (lookupA d.strategy_stats strategy_name).getD []
  let stats := (lookupA strat_map symbol).getD ⟨0, 0, 0, 0⟩
  let total_trades := stats.total_trades + 1
  let winning_trades :=
    if 0 < pnl_percent then stats.winning_trades + 1 else stats.winning_trades
  let total_pnl := stats.total_pnl + pnl_percent
  let avg_hold_time :=
    (stats.avg_hold_time * ((total_trades : ℚ) - 1) + hold_time_hours) / (total_trades : ℚ)
  ⟨d.trades ++ [trade_record],
   insertA d.strategy_stats strategy_name
     (insertA strat_map symbol ⟨total_trades, winning_trades, total_pnl, avg_hold_time⟩)⟩

/-- record_trade from performance_tracker.py. There is no validation of
prices or times in the source: the only failure is the ZeroDivisionError
from the pnl computation at entry_price = 0, raised before any mutation.
On success the new state is saved (save_data swallows write failures). -/
def record_trade (writable : Bool) (now : ℚ) (d : PerfData)
    (strategy_name symbol : String) (entry_price exit_price entry_time exit_time : ℚ)
    (direction : String := "long") (signal_strength : ℚ := 1) :
    Except RecordError (PerfData × SaveOutcome) :=
  if entry_price = 0 then .error .zeroDivisionError
  else
    let d' := record_trade_apply now d strategy_name symbol entry_price exit_price
      entry_time exit_time direction signal_strength
    .ok (d', save_data writable d')

/-- One row of the mapping get_strategy_performance returns per symbol. -/
structure PerfEntry where
  total_trades : Nat
  win_rate : ℚ
  avg_pnl_percent : ℚ
  total_pnl_percent : ℚ
  avg_hold_time : ℚ
  performance_score : ℚ
  deriving DecidableEq

/-- The symbol → stats dict of one strategy ({} when the strategy is absent,
matching the early `return {}`). -/
def statsFor (d : PerfData) (strategy_name : String) : List (String × AggStats) :=
  (lookupA d.strategy_stats strategy_name).getD []

/-- get_strategy_performance from performance_tracker.py: keeps the symbols
with total_trades ≥ min_trades (default 5) and derives win_rate, average
pnl, and performance_score = win_rate * max(avg_pnl, 0.001). -/
def get_strategy_performance (d : PerfData) (strategy_name : String)
    (min_trades : Nat := 5) : List (String × PerfEntry) :=
  (statsFor d strategy_name).filterMap fun kv =>
    if min_trades ≤ kv.2.total_trades then
      let win_rate : ℚ := (kv.2.winning_trades : ℚ) / (kv.2.total_trades : ℚ)
      let avg_pnl : ℚ := kv.2.total_pnl / (kv.2.total_trades : ℚ)
      some (kv.1, ⟨kv.2.total_trades, win_rate, avg_pnl, kv.2.total_pnl,
                   kv.2.avg_hold_time, win_rate * max avg_pnl (1 / 1000)⟩)
    else none

/-- get_top_performers from performance_tracker.py: the qualifying symbols
sorted by performance_score descending (Python's stable sort with
reverse=True), truncated to `count`. -/
def get_top_performers (d : PerfData) (strategy_name : String)
    (count : Nat := 10) (min_trades : Nat := 3) : List String :=
  let performance := get_strategy_performance d strategy_name min_trades
  if performance.isEmpty then []
  else
    ((performance.mergeSort fun x y =>
        decide (y.2.performance_score ≤ x.2.performance_score)).take count).map (·.1)

/-- TOP_LIQUID_STOCKS from config.py. -/
def TOP_LIQUID_STOCKS : List String :=
  ["AAPL", "MSFT", "GOOGL", "AMZN", "NVDA", "TSLA", "META", "AVGO", "PEP", "COST"]

/-- NASDAQ_100 from config.py (the abbreviated 30-symbol list). -/
def NASDAQ_100 : List String :=
  ["AAPL", "MSFT", "GOOGL", "AMZN", "NVDA", "TSLA", "META", "AVGO",
   "PEP", "COST", "ADBE", "CMCSA", "NFLX", "INTC", "QCOM", "TXN",
   "INTU", "AMAT", "AMD", "ISRG", "BKNG", "HON", "AMGN", "VRTX",
   "GILD", "MU", "ADP", "LRCX", "SBUX", "MDLZ"]

/-- The hardcoded mega-cap list inlined at line 103 of stock_selector.py. -/
def MEGA_CAP_STOCKS : List String := ["AAPL", "MSFT", "GOOGL", "AMZN", "NVDA"]

/-- self.strategy_base_lists as a lookup with the dict.get default
NASDAQ_100[:15]. -/
def strategy_base_lists (strategy_name : String) : List String :=
  if strategy_name = "VWAP Mean Reversion" then TOP_LIQUID_STOCKS.take 8
  else if strategy_name = "Gap Fade" then NASDAQ_100.take 25
  else if strategy_name = "Technical Breakout" then NASDAQ_100.take 20
  else if strategy_name = "Earnings Momentum" then NASDAQ_100.take 15
  else if strategy_name = "Sector Rotation" then NASDAQ_100.take 30
  else if strategy_name = "Statistical Pairs" then TOP_LIQUID_STOCKS.take 12
  else if strategy_name = "RSI Mean Reversion" then NASDAQ_100.take 20
  else if strategy_name = "Volume Spike Reversal" then NASDAQ_100.take 15
  else if strategy_name = "End-of-Day Momentum" then TOP_LIQUID_STOCKS.take 8
  else if strategy_name = "Time-Based Patterns" then TOP_LIQUID_STOCKS.take 6
  else if strategy_name = "News-Driven Momentum" then NASDAQ_100.take 25
  else NASDAQ_100.take 15

/-- The per-strategy affinity lists of _calculate_quality_score's
strategy-specific branches ([] for strategies with no branch). -/
def affinity_list (strategy_name : String) : List String :=
  if strategy_name = "VWAP Mean Reversion" then ["AAPL", "MSFT", "GOOGL"]
  else if strategy_name = "Gap Fade" then ["TSLA", "NVDA", "AMD"]
  else if strategy_name = "Technical Breakout" then ["NVDA", "TSLA", "AMD", "CRM"]
  else if strategy_name = "Sector Rotation" then ["AAPL", "MSFT", "NVDA", "GOOGL", "META"]
  else []

/-- _calculate_quality_score from stock_selector.py, with the
random.uniform(0, 3) jitter made an explicit parameter. Note the source's
if/elif: the +15 mega-cap branch is tested only when the symbol is NOT in
TOP_LIQUID_STOCKS. -/
def _calculate_quality_score (symbol strategy_name : String) (jitter : ℚ) : ℚ :=
  let score : ℚ := 0
  let score :=
    if symbol ∈ TOP_LIQUID_STOCKS then score + 10
    else if symbol ∈ MEGA_CAP_STOCKS then score + 15
    else score
  let score :=
    if strategy_name = "VWAP Mean Reversion" then
      if symbol ∈ ["AAPL", "MSFT", "GOOGL"] then score + 5 else score
    else if strategy_name = "Gap Fade" then
      if symbol ∈ ["TSLA", "NVDA", "AMD"] then score + 5 else score
    else if strategy_name = "Technical Breakout" then
      if symbol ∈ ["NVDA", "TSLA", "AMD", "CRM"] then score + 5 else score
    else if strategy_name = "Sector Rotation" then
      if symbol ∈ ["AAPL", "MSFT", "NVDA", "GOOGL", "META"] then score + 5 else score
    else score
  score + jitter

/-- _performance_based_selection from stock_selector.py: up to
target_count // 2 proven performers verbatim, the rest filled from the base
list (minus those already selected) by quality score descending. The
per-symbol jitter draw is the `jit` parameter. -/
def _performance_based_selection (strategy_name : String)
    (base_list top_performers : List String) (target_count : Nat)
    (jit : String → ℚ) : List String :=
  let proven_count := min top_performers.length (target_count / 2)
  let selected := top_performers.take proven_count
  let remaining_count := target_count - selected.length
  let candidates := base_list.filter fun stock => decide (stock ∉ selected)
  let quality_scores := candidates.map fun stock =>
    (stock, _calculate_quality_score stock strategy_name (jit stock))
  let sorted := quality_scores.mergeSort fun x y => decide (y.2 ≤ x.2)
  let selected := selected ++ (sorted.take remaining_count).map (·.1)
  selected.take target_count

/-- _quality_based_selection from stock_selector.py: every base-list symbol
scored by quality, sorted descending, truncated to target_count. -/
def _quality_based_selection (strategy_name : String) (base_list : List String)
    (target_count : Nat) (jit : String → ℚ) : List String :=
  let quality_scores := base_list.map fun stock =>
    (stock, _calculate_quality_score stock strategy_name (jit stock))
  ((quality_scores.mergeSort fun x y => decide (y.2 ≤ x.2)).take target_count).map (·.1)

/-- get_optimized_stock_list from stock_selector.py. `target_count = none`
models the Python default None (replaced by min(len(base), 10)). -/
def get_optimized_stock_list (d : PerfData) (strategy_name : String)
    (target_count : Option Nat) (jit : String → ℚ) : List String :=
  let base_list := strategy_base_lists strategy_name
  let target_count := target_count.getD (min base_list.length 10)
  let top_performers := get_top_performers d strategy_name (target_count * 2)
  if target_count / 2 ≤ top_performers.length then
    _performance_based_selection strategy_name base_list top_performers target_count jit
  else
    _quality_based_selection strategy_name base_list target_count jit

/-- update_strategy_targets from stock_selector.py: early return of the
current list when the strategy has no qualifying performance rows; otherwise
the optimized list replaces it only when the qualifying rows sum to at least
20 total trades. -/
def update_strategy_targets (d : PerfData) (strategy_name : String)
    (current_list : List String) (jit : String → ℚ) : List String :=
  let performance := get_strategy_performance d strategy_name
  if performance.isEmpty then current_list
  else
    let optimized_list := get_optimized_stock_list d strategy_name (some current_list.length) jit
    let total_trades : Nat := (performance.map fun kv => kv.2.total_trades).sum
    if 20 ≤ total_trades then optimized_list else current_list

/-- Reads back a count serialized as a JSON number (exact inverse of the
natural-number embedding into ℚ). -/
def decodeNat : Json → Option Nat
  | .num q => if q = (q.num.toNat : ℚ) then some q.num.toNat else none
  | _ => none

/-- Reads back a decimal field. -/
def decodeRat : Json → Option ℚ
  | .num q => some q
  | _ => none

/-- Reads a serialized trade dict back into a TradeRecord (the key layout
record_trade wrote and the dashboard/summary code indexes). -/
def decodeTrade : Json → Option TradeRecord
  | .obj [("timestamp", .num timestamp), ("strategy", .str strategy),
          ("symbol", .str symbol), ("direction", .str direction),
          ("entry_price", .num entry_price), ("exit_price", .num exit_price),
          ("entry_time", .num entry_time), ("exit_time", .num exit_time),
          ("pnl_percent", .num pnl_percent), ("hold_time_hours", .num hold_time_hours),
          ("signal_strength", .num signal_strength), ("win", .bool win)] =>
    some ⟨timestamp, strategy, symbol, direction, entry_price, exit_price, entry_time,
          exit_time, pnl_percent, hold_time_hours, signal_strength, win⟩
  | _ => none

/-- Reads a serialized stats dict back into AggStats. -/
def decodeStats : Json → Option AggStats
  | .obj [("total_trades", tt), ("winning_trades", wt),
          ("total_pnl", tp), ("avg_hold_time", ah)] =>
    match decodeNat tt, decodeNat wt, decodeRat tp, decodeRat ah with
    | some a, some b, some c, some d => some ⟨a, b, c, d⟩
    | _, _, _, _ => none
  | _ => none

/-- Reads back a serialized trade list. -/
def decodeTrades : List Json → Option (List TradeRecord)
  | [] => some []
  | j :: rest =>
    match decodeTrade j, decodeTrades rest with
    | some t, some ts => some (t :: ts)
    | _, _ => none

/-- Reads back one strategy's symbol → stats dict entries. -/
def decodeStatsFields : List (String × Json) → Option (List (String × AggStats))
  | [] => some []
  | (k, v) :: rest =>
    match decodeStats v, decodeStatsFields rest with
    | some s, some m => some ((k, s) :: m)
    | _, _ => none

/-- Reads back one strategy's symbol → stats dict. -/
def decodeSymbolStats : Json → Option (List (String × AggStats))
  | .obj fields => decodeStatsFields fields
  | _ => none

/-- Reads back the strategy_stats mapping entries. -/
def decodeStrategyFields :
    List (String × Json) → Option (List (String × List (String × AggStats)))
  | [] => some []
  | (k, v) :: rest =>
    match decodeSymbolStats v, decodeStrategyFields rest with
    | some m, some ms => some ((k, m) :: ms)
    | _, _ => none

/-- Reads back the strategy_stats mapping. -/
def decodeStrategyStats : Json → Option (List (String × List (String × AggStats)))
  | .obj fields => decodeStrategyFields fields
  | _ => none

/-- Reads a persisted document back into the in-memory data model: the set
of TradeRecords and the AggregateStats per (strategy, symbol) pair. -/
def decodePerfData : Json → Option PerfData
  | .obj [("trades", .arr ts), ("strategy_stats", ss)] =>
    match decodeTrades ts, decodeStrategyStats ss with
    | some trades, some stats => some ⟨trades, stats⟩
    | _, _ => none
  | _ => none

/-- The caller-supplied arguments of one record_trade call (prices and
datetimes; `datetime` arguments as epoch seconds). -/
structure TradeInput where
  strategy : String
  symbol : String
  entry_price : ℚ
  exit_price : ℚ
  entry_time : ℚ
  exit_time : ℚ
  direction : String
  signal_strength : ℚ
  deriving DecidableEq

/-- The hold time in hours record_trade derives for this call:
`(exit_time - entry_time).total_seconds() / 3600`. -/
def hold_hours (t : TradeInput) : ℚ := (t.exit_time - t.entry_time) / 3600

/-- The pnl_percent record_trade derives for this call. -/
def pnl_of (t : TradeInput) : ℚ :=
  if t.direction = "long" then (t.exit_price - t.entry_price) / t.entry_price
  else (t.entry_price - t.exit_price) / t.entry_price

/-- A sequence of record_trade calls, stopping at the first exception
(writable store, fixed clock: neither affects aggregates). -/
def record_many (now : ℚ) (d : PerfData) : List TradeInput → Except RecordError PerfData
  | [] => .ok d
  | t :: ts =>
    match record_trade true now d t.strategy t.symbol t.entry_price t.exit_price
        t.entry_time t.exit_time t.direction t.signal_strength with
    | .error e => .error e
    | .ok (d', _) => record_many now d' ts

/-- The state after a sequence of successful record_trade calls. -/
def record_many_apply (now : ℚ) (d : PerfData) : List TradeInput → PerfData
  | [] => d
  | t :: ts =>
    record_many_apply now
      (record_trade_apply now d t.strategy t.symbol t.entry_price t.exit_price
        t.entry_time t.exit_time t.direction t.signal_strength) ts

/-- Modelled from the spec's words, for comparison with
_calculate_quality_score: a liquidity-tier base where the higher tier of +15
wins when the symbol is in both the top-liquid and the mega-cap sets, plus
the +5 affinity bonus, plus the jitter. -/
def claimed_quality_score (symbol strategy_name : String) (jitter : ℚ) : ℚ :=
  (if symbol ∈ MEGA_CAP_STOCKS then (15 : ℚ)
   else if symbol ∈ TOP_LIQUID_STOCKS then 10 else 0)
  + (if symbol ∈ affinity_list strategy_name then 5 else 0) + jitter

/-- A concrete tracker state: one (strategy, symbol) pair with 10 trades,
9 of them winning, and a slightly negative total pnl. -/
def trackerExample : PerfData :=
  ⟨[], [("S1", [("XYZ", ⟨10, 9, -(1 / 10), 1⟩)])]⟩

/-- The performance row get_strategy_performance derives from
trackerExample: win_rate 0.9, avg_pnl_percent -0.01, score 0.0009. -/
def entryExample : PerfEntry :=
  ⟨10, 9 / 10, -(1 / 100), -(1 / 10), 1, 9 / 10000⟩

/-- A parsed store document that has the 'strategy_stats' key (with real
aggregate rows) but is missing the 'trades' field required by the persisted
layout: structurally invalid, yet accepted by load_data's key test. -/
def invalidStoreDoc : Json :=
  .obj [("strategy_stats", .obj [("S1", .obj [("XYZ", encodeStats ⟨3, 2, 1 / 20, 2⟩)])])]

theorem lookupA_insertA_self {α : Type} (m : List (String × α)) (k : String) (v : α) :
    lookupA (insertA m k v) k = some v := by
  induction m with
  | nil => simp [insertA, lookupA]
  | cons hd tl ih =>
    obtain ⟨a, b⟩ := hd
    by_cases hk : a = k
    · simp [insertA, hk, lookupA]
    · simp [insertA, hk, lookupA, ih]

theorem getStats_record_trade_apply (now : ℚ) (d : PerfData) (s y : String)
    (ep xp et xt : ℚ) (dir : String) (sig : ℚ) :
    getStats (record_trade_apply now d s y ep xp et xt dir sig) s y =
      ⟨(getStats d s y).total_trades + 1,
       if 0 < (if dir = "long" then (xp - ep) / ep else (ep - xp) / ep)
         then (getStats d s y).winning_trades + 1 else (getStats d s y).winning_trades,
       (getStats d s y).total_pnl + (if dir = "long" then (xp - ep) / ep else (ep - xp) / ep),
       ((getStats d s y).avg_hold_time * (((getStats d s y).total_trades + 1 : ℚ) - 1)
          + (xt - et) / 3600) / ((getStats d s y).total_trades + 1 : ℚ)⟩ := by
  unfold record_trade_apply getStats
  simp [lookupA_insertA_self]

/-- Claim C1 (counterexample): a record_trade call with exit_time strictly
earlier than entry_time does not fail with any error: it returns normally,
appends the trade, and bumps the pair's total_trades from 0 to 1. -/
theorem record_trade_accepts_inverted_times :
    (record_trade true 0 emptyPerfData "S1" "AAPL" 100 90 7200 3600 "long" 1).map
        (fun p => (p.1.trades.length, (getStats p.1 "S1" "AAPL").total_trades))
      = Except.ok (1, 1) := by
  rfl

/-- Claim C1 (amended): record_trade performs no validation of prices or
times. Every call with entry_price ≠ 0 — including exit_price ≤ 0,
entry_price < 0, or exit_time < entry_time — succeeds, appends exactly one
trade record, and updates the pair's aggregate stats; the only failing input
is entry_price = 0, which raises ZeroDivisionError, not InvalidTradeError. -/
theorem record_trade_no_validation (writable : Bool) (now : ℚ) (d : PerfData)
    (s y : String) (ep xp et xt : ℚ) (dir : String) (sig : ℚ) (hep : ep ≠ 0) :
    record_trade writable now d s y ep xp et xt dir sig =
      .ok (record_trade_apply now d s y ep xp et xt dir sig,
           save_data writable (record_trade_apply now d s y ep xp et xt dir sig)) ∧
    (record_trade_apply now d s y ep xp et xt dir sig).trades.length
      = d.trades.length + 1 ∧
    (getStats (record_trade_apply now d s y ep xp et xt dir sig) s y).total_trades
      = (getStats d s y).total_trades + 1 := by
  refine ⟨?_, ?_, ?_⟩
  · unfold record_trade
    rw [if_neg hep]
  · unfold record_trade_apply
    simp
  · rw [getStats_record_trade_apply]

/-- Witness for record_trade_no_validation: entry at 100, a negative exit
price and an exit_time a full hour before entry_time are all accepted. -/
theorem record_trade_no_validation_witness :
    record_trade true 0 emptyPerfData "S1" "AAPL" 100 (-5) 7200 3600 "long" 1 =
      .ok (record_trade_apply 0 emptyPerfData "S1" "AAPL" 100 (-5) 7200 3600 "long" 1,
           save_data true (record_trade_apply 0 emptyPerfData "S1" "AAPL" 100 (-5) 7200 3600 "long" 1)) ∧
    (record_trade_apply 0 emptyPerfData "S1" "AAPL" 100 (-5) 7200 3600 "long" 1).trades.length
      = emptyPerfData.trades.length + 1 ∧
    (getStats (record_trade_apply 0 emptyPerfData "S1" "AAPL" 100 (-5) 7200 3600 "long" 1) "S1" "AAPL").total_trades
      = (getStats emptyPerfData "S1" "AAPL").total_trades + 1 :=
  record_trade_no_validation true 0 emptyPerfData "S1" "AAPL" 100 (-5) 7200 3600 "long" 1
    (by norm_num)

/-- Claim C9: when the durable store is unwritable, record_trade still
returns normally — the saved-state failure is reduced to a printed message
(save_data's except branch) and never surfaced to the caller. The spec
requires the opposite, so this is a code bug, witnessed here by evaluation. -/
theorem record_trade_swallows_save_failure :
    (record_trade false 0 emptyPerfData "S1" "AAPL" 100 110 0 3600 "long" 1).map
        (fun p => (p.1.trades.length, p.2))
      = Except.ok (1, SaveOutcome.printedError) := by
  rfl

/-- Claim C10: for every direction tag other than the exact string "long"
(including "short" and arbitrary invalid tags), record_trade accepts the
trade and computes pnl_percent with the short formula
(entry_price - exit_price) / entry_price, deriving the win flag from it. -/
theorem record_trade_nonlong_short_formula (writable : Bool) (now : ℚ) (d : PerfData)
    (s y : String) (ep xp et xt : ℚ) (dir : String) (sig : ℚ)
    (hdir : dir ≠ "long") (hep : ep ≠ 0) :
    record_trade writable now d s y ep xp et xt dir sig =
      .ok (record_trade_apply now d s y ep xp et xt dir sig,
           save_data writable (record_trade_apply now d s y ep xp et xt dir sig)) ∧
    (record_trade_apply now d s y ep xp et xt dir sig).trades =
      d.trades ++ [⟨now, s, y, dir, ep, xp, et, xt, (ep - xp) / ep, (xt - et) / 3600, sig,
                    decide (0 < (ep - xp) / ep)⟩] := by
  constructor
  · unfold record_trade
    rw [if_neg hep]
  · unfold record_trade_apply
    simp [hdir]

/-- Witness for record_trade_nonlong_short_formula at the invalid tag
"sideways" with entry 100 and exit 90. -/
theorem record_trade_nonlong_short_formula_witness :
    record_trade true 0 emptyPerfData "S1" "AAPL" 100 90 0 3600 "sideways" 1 =
      .ok (record_trade_apply 0 emptyPerfData "S1" "AAPL" 100 90 0 3600 "sideways" 1,
           save_data true (record_trade_apply 0 emptyPerfData "S1" "AAPL" 100 90 0 3600 "sideways" 1)) ∧
    (record_trade_apply 0 emptyPerfData "S1" "AAPL" 100 90 0 3600 "sideways" 1).trades =
      emptyPerfData.trades ++ [⟨0, "S1", "AAPL", "sideways", 100, 90, 0, 3600,
        (100 - 90) / 100, (3600 - 0) / 3600, 1, decide (0 < ((100 : ℚ) - 90) / 100)⟩] :=
  record_trade_nonlong_short_formula true 0 emptyPerfData "S1" "AAPL" 100 90 0 3600 "sideways" 1
    (by decide) (by norm_num)

/-- Claim C5 (counterexample): AAPL is in both the top-liquid set and the
hardcoded mega-cap set, and its quality score (jitter 0, no affinity for
Gap Fade) is 10, not the 15 the claimed higher-tier-wins rule would give:
the source's elif makes the top-liquid +10 win when both apply. -/
theorem quality_score_tier_counterexample :
    "AAPL" ∈ TOP_LIQUID_STOCKS ∧ "AAPL" ∈ MEGA_CAP_STOCKS ∧
    _calculate_quality_score "AAPL" "Gap Fade" 0 = 10 ∧
    claimed_quality_score "AAPL" "Gap Fade" 0 = 15 ∧
    _calculate_quality_score "AAPL" "Gap Fade" 0 ≠ claimed_quality_score "AAPL" "Gap Fade" 0 := by
  have h1 : _calculate_quality_score "AAPL" "Gap Fade" 0 = 10 := by
    simp +decide [_calculate_quality_score, TOP_LIQUID_STOCKS, MEGA_CAP_STOCKS]
  have h2 : claimed_quality_score "AAPL" "Gap Fade" 0 = 15 := by
    simp +decide [claimed_quality_score, MEGA_CAP_STOCKS, affinity_list]
  refine ⟨by decide, by decide, h1, h2, ?_⟩
  rw [h1, h2]
  norm_num

/-- Claim C5 (amended): every quality score decomposes as a liquidity-tier
base (+10 when the symbol is top-liquid — even when it is also a mega-cap,
since the tiers are tested in that order — else +15 when it is a mega-cap,
else 0), plus +5 when the symbol is on the strategy's affinity list, plus
the jitter term drawn from [0, 3). -/
theorem quality_score_decomposition (sym strat : String) (j : ℚ)
    (h0 : 0 ≤ j) (h3 : j < 3) :
    _calculate_quality_score sym strat j =
      (if sym ∈ TOP_LIQUID_STOCKS then (10 : ℚ)
       else if sym ∈ MEGA_CAP_STOCKS then 15 else 0)
      + (if sym ∈ affinity_list strat then 5 else 0) + j ∧
    0 ≤ j ∧ j < 3 := by
  refine ⟨?_, h0, h3⟩
  unfold _calculate_quality_score affinity_list
  split_ifs <;> simp_all

/-- Witness for quality_score_decomposition: NVDA / Gap Fade with jitter 1
(top-liquid +10, affinity +5, jitter 1). -/
theorem quality_score_decomposition_witness :
    (_calculate_quality_score "NVDA" "Gap Fade" 1 =
      (if "NVDA" ∈ TOP_LIQUID_STOCKS then (10 : ℚ)
       else if "NVDA" ∈ MEGA_CAP_STOCKS then 15 else 0)
      + (if "NVDA" ∈ affinity_list "Gap Fade" then 5 else 0) + 1 ∧
     (0 : ℚ) ≤ 1 ∧ (1 : ℚ) < 3) ∧
    _calculate_quality_score "NVDA" "Gap Fade" 1 = 16 :=
  ⟨quality_score_decomposition "NVDA" "Gap Fade" 1 (by norm_num) (by norm_num),
   by
    have h : _calculate_quality_score "NVDA" "Gap Fade" 1 = 10 + 5 + 1 := by
      simp +decide [_calculate_quality_score, TOP_LIQUID_STOCKS, MEGA_CAP_STOCKS]
    rw [h]
    norm_num⟩

theorem sum_map_filterMap_le {α β : Type} (g : α → Option β) (f : β → Nat) (h : α → Nat)
    (hg : ∀ a b, g a = some b → f b ≤ h a) (l : List α) :
    ((l.filterMap g).map f).sum ≤ (l.map h).sum := by
  induction l with
  | nil => simp
  | cons hd tl ih =>
    cases hgd : g hd with
    | none =>
      simp only [List.filterMap_cons, hgd, List.map_cons, List.sum_cons]
      omega
    | some b =>
      have hfb := hg hd b hgd
      simp only [List.filterMap_cons, hgd, List.map_cons, List.sum_cons]
      omega

theorem perf_total_le (d : PerfData) (name : String) (mt : Nat) :
    ((get_strategy_performance d name mt).map fun kv => kv.2.total_trades).sum
      ≤ ((statsFor d name).map fun kv => kv.2.total_trades).sum := by
  unfold get_strategy_performance
  refine sum_map_filterMap_le _ _ _ (fun a b hab => ?_) (statsFor d name)
  by_cases hc : mt ≤ a.2.total_trades
  · rw [if_pos hc] at hab
    simp only [Option.some.injEq] at hab
    subst hab
    exact le_refl _
  · rw [if_neg hc] at hab
    cases hab

/-- Claim C3: update_strategy_targets sums total_trades over the strategy's
current performance map (the rows with at least min_trades = 5 trades) and
returns the input list unchanged when that sum is below 20, else the result
of get_optimized_stock_list with target_count = the input list's length. In
particular a strategy with at most 19 recorded trades across all symbols
keeps its list unchanged, since the qualifying sum is bounded by the full
per-symbol stats sum. -/
theorem update_strategy_targets_gate (d : PerfData) (name : String)
    (cur : List String) (jit : String → ℚ) :
    (update_strategy_targets d name cur jit =
      if 20 ≤ ((get_strategy_performance d name 5).map fun kv => kv.2.total_trades).sum
      then get_optimized_stock_list d name (some cur.length) jit
      else cur) ∧
    (((statsFor d name).map fun kv => kv.2.total_trades).sum < 20 →
      update_strategy_targets d name cur jit = cur) := by
  have hmain : update_strategy_targets d name cur jit =
      if 20 ≤ ((get_strategy_performance d name 5).map fun kv => kv.2.total_trades).sum
      then get_optimized_stock_list d name (some cur.length) jit
      else cur := by
    unfold update_strategy_targets
    by_cases hP : (get_strategy_performance d name 5).isEmpty
    · have hnil : get_strategy_performance d name 5 = [] := by
        simpa using hP
      simp [hP, hnil]
    · simp [hP]
  refine ⟨hmain, fun hlt => ?_⟩
  rw [hmain, if_neg]
  intro h20
  have := le_trans h20 (perf_total_le d name 5)
  omega

/-- Witness for update_strategy_targets_gate: the empty tracker (0 < 20
recorded trades) leaves a Gap Fade list untouched. -/
theorem update_strategy_targets_gate_witness :
    update_strategy_targets emptyPerfData "Gap Fade" ["AAPL", "MSFT"] (fun _ => 0)
      = ["AAPL", "MSFT"] :=
  (update_strategy_targets_gate emptyPerfData "Gap Fade" ["AAPL", "MSFT"] (fun _ => 0)).2
    (by simp [statsFor, lookupA, emptyPerfData])

/-- Claim C4: every row of get_strategy_performance carries
performance_score = win_rate * max(avg_pnl_percent, 0.001), which is
non-negative (the 0.001 floor blocks the negative-average case). -/
theorem performance_score_formula (d : PerfData) (name : String) (mt : Nat)
    (sym : String) (e : PerfEntry)
    (h : (sym, e) ∈ get_strategy_performance d name mt) :
    e.performance_score = e.win_rate * max e.avg_pnl_percent (1 / 1000) ∧
    0 ≤ e.performance_score := by
  unfold get_strategy_performance at h
  obtain ⟨kv, hkv, hsome⟩ := List.mem_filterMap.mp h
  by_cases hc : mt ≤ kv.2.total_trades
  · rw [if_pos hc] at hsome
    simp only [Option.some.injEq, Prod.mk.injEq] at hsome
    obtain ⟨-, he⟩ := hsome
    subst he
    refine ⟨rfl, mul_nonneg (by positivity) (le_trans (by norm_num) (le_max_right _ _))⟩
  · rw [if_neg hc] at hsome
    cases hsome

/-- Witness for performance_score_formula: the claim's own scenario — a
symbol with win_rate 0.9 and avg_pnl_percent -0.01 scores exactly
0.9 * 0.001 = 0.0009, not a negative number. -/
theorem performance_score_formula_witness :
    ((9 : ℚ) / 10 * max (-(1 / 100) : ℚ) (1 / 1000) = 9 / 10000) ∧
    (entryExample.performance_score
        = entryExample.win_rate * max entryExample.avg_pnl_percent (1 / 1000) ∧
     0 ≤ entryExample.performance_score) := by
  constructor
  · rw [max_eq_right (by norm_num)]
    norm_num
  · refine performance_score_formula trackerExample "S1" 5 "XYZ" entryExample ?_
    unfold get_strategy_performance statsFor trackerExample
    apply List.mem_filterMap.mpr
    refine ⟨("XYZ", ⟨10, 9, -(1 / 10), 1⟩), by simp +decide [lookupA], ?_⟩
    rw [if_pos (by norm_num)]
    simp only [Option.some.injEq, Prod.mk.injEq, entryExample, PerfEntry.mk.injEq]
    norm_num [max_def]

theorem record_many_eq_apply (now : ℚ) (ts : List TradeInput)
    (h : ∀ t ∈ ts, t.entry_price ≠ 0) : ∀ d : PerfData,
    record_many now d ts = .ok (record_many_apply now d ts) := by
  induction ts with
  | nil => intro d; rfl
  | cons t ts ih =>
    intro d
    have ht : t.entry_price ≠ 0 := h t (List.mem_cons_self t ts)
    simp only [record_many, record_many_apply, record_trade, if_neg ht]
    exact ih (fun u hu => h u (List.mem_cons_of_mem t hu)) _

theorem pnl_of_eq (t : TradeInput) :
    pnl_of t = if t.direction = "long"
      then (t.exit_price - t.entry_price) / t.entry_price
      else (t.entry_price - t.exit_price) / t.entry_price := rfl

theorem hold_hours_eq (t : TradeInput) :
    hold_hours t = (t.exit_time - t.entry_time) / 3600 := rfl

theorem record_many_apply_stats (now : ℚ) (s y : String) (ts : List TradeInput)
    (hts : ∀ t ∈ ts, t.strategy = s ∧ t.symbol = y) : ∀ d : PerfData,
    (getStats (record_many_apply now d ts) s y).total_trades
        = (getStats d s y).total_trades + ts.length ∧
    (getStats (record_many_apply now d ts) s y).winning_trades
        = (getStats d s y).winning_trades + ts.countP (fun t => decide (0 < pnl_of t)) ∧
    (getStats (record_many_apply now d ts) s y).avg_hold_time
        * ((getStats d s y).total_trades + ts.length : ℚ)
      = (getStats d s y).avg_hold_time * ((getStats d s y).total_trades : ℚ)
        + (ts.map hold_hours).sum := by
  induction ts with
  | nil =>
    intro d
    refine ⟨by simp [record_many_apply], by simp [record_many_apply], ?_⟩
    simp only [record_many_apply, List.length_nil, List.map_nil, List.sum_nil]
    push_cast
    ring
  | cons t ts ih =>
    intro d
    obtain ⟨hs, hy⟩ := hts t (List.mem_cons_self t ts)
    have ihd := ih (fun u hu => hts u (List.mem_cons_of_mem t hu))
      (record_trade_apply now d t.strategy t.symbol t.entry_price t.exit_price
        t.entry_time t.exit_time t.direction t.signal_strength)
    rw [hs, hy] at ihd
    have hstep := getStats_record_trade_apply now d s y t.entry_price t.exit_price
      t.entry_time t.exit_time t.direction t.signal_strength
    rw [← pnl_of_eq, ← hold_hours_eq] at hstep
    simp only [record_many_apply, hs, hy]
    rw [hstep] at ihd
    simp only at ihd
    obtain ⟨ih1, ih2, ih3⟩ := ihd
    set n := (getStats d s y).total_trades with hn
    set a := (getStats d s y).avg_hold_time with ha
    refine ⟨?_, ?_, ?_⟩
    · rw [ih1, List.length_cons]
      omega
    · rw [ih2, List.countP_cons]
      by_cases hwin : 0 < pnl_of t <;> simp [hwin] <;> omega
    · have hne : ((n : ℚ) + 1) ≠ 0 := by positivity
      rw [List.length_cons]
      rw [show ((n : ℚ) + ((ts.length + 1 : ℕ) : ℚ)) = ((n + 1 : ℕ) : ℚ) + (ts.length : ℚ) by
        push_cast
        ring]
      rw [ih3]
      rw [show ((n + 1 : ℕ) : ℚ) = (n : ℚ) + 1 by push_cast; ring]
      rw [div_mul_cancel₀ _ hne]
      simp only [List.map_cons, List.sum_cons]
      ring

theorem record_many_apply_stats_empty (now : ℚ) (s y : String) (ts : List TradeInput)
    (hts : ∀ t ∈ ts, t.strategy = s ∧ t.symbol = y) :
    (getStats (record_many_apply now emptyPerfData ts) s y).total_trades = ts.length ∧
    (getStats (record_many_apply now emptyPerfData ts) s y).winning_trades
      = ts.countP (fun t => decide (0 < pnl_of t)) ∧
    (getStats (record_many_apply now emptyPerfData ts) s y).avg_hold_time
      = (ts.map hold_hours).sum / (ts.length : ℚ) := by
  have hemp : getStats emptyPerfData s y = ⟨0, 0, 0, 0⟩ := rfl
  obtain ⟨h1, h2, h3⟩ := record_many_apply_stats now s y ts hts emptyPerfData
  rw [hemp] at h1 h2 h3
  simp only at h1 h2 h3
  refine ⟨by simpa using h1, by simpa using h2, ?_⟩
  rcases Nat.eq_zero_or_pos ts.length with hlen | hlen
  · have hnil : ts = [] := List.length_eq_zero.mp hlen
    subst hnil
    simp [record_many_apply, hemp]
  · have hne : (ts.length : ℚ) ≠ 0 := by positivity
    have h3' : (getStats (record_many_apply now emptyPerfData ts) s y).avg_hold_time
        * (ts.length : ℚ) = (ts.map hold_hours).sum := by
      simpa using h3
    rw [eq_div_iff hne]
    exact h3'

/-- Claim C2: for any sequence of successfully recorded trades for one
(strategy, symbol) pair, replayed from the empty ledger, the aggregate has
total_trades = N, winning_trades ≤ total_trades (so the win rate lies in
[0, 1]), and avg_hold_time equal to the arithmetic mean of the N hold
times; any permutation of the sequence yields the same total_trades and the
same avg_hold_time (order-independence of the mean). -/
theorem record_trade_aggregate_mean (now : ℚ) (s y : String) (ts ts' : List TradeInput)
    (hts : ∀ t ∈ ts, t.strategy = s ∧ t.symbol = y ∧ t.entry_price ≠ 0)
    (hperm : ts.Perm ts') :
    record_many now emptyPerfData ts = .ok (record_many_apply now emptyPerfData ts) ∧
    (getStats (record_many_apply now emptyPerfData ts) s y).total_trades = ts.length ∧
    (getStats (record_many_apply now emptyPerfData ts) s y).winning_trades
      ≤ (getStats (record_many_apply now emptyPerfData ts) s y).total_trades ∧
    (0 : ℚ) ≤ ((getStats (record_many_apply now emptyPerfData ts) s y).winning_trades : ℚ)
        / ((getStats (record_many_apply now emptyPerfData ts) s y).total_trades : ℚ) ∧
    ((getStats (record_many_apply now emptyPerfData ts) s y).winning_trades : ℚ)
        / ((getStats (record_many_apply now emptyPerfData ts) s y).total_trades : ℚ) ≤ 1 ∧
    (getStats (record_many_apply now emptyPerfData ts) s y).avg_hold_time
      = (ts.map hold_hours).sum / (ts.length : ℚ) ∧
    (getStats (record_many_apply now emptyPerfData ts') s y).total_trades
      = (getStats (record_many_apply now emptyPerfData ts) s y).total_trades ∧
    (getStats (record_many_apply now emptyPerfData ts') s y).avg_hold_time
      = (getStats (record_many_apply now emptyPerfData ts) s y).avg_hold_time := by
  have hts2 : ∀ t ∈ ts, t.strategy = s ∧ t.symbol = y :=
    fun t ht => ⟨(hts t ht).1, (hts t ht).2.1⟩
  have hts2' : ∀ t ∈ ts', t.strategy = s ∧ t.symbol = y :=
    fun t ht => hts2 t (hperm.mem_iff.mpr ht)
  obtain ⟨e1, e2, e3⟩ := record_many_apply_stats_empty now s y ts hts2
  obtain ⟨f1, f2, f3⟩ := record_many_apply_stats_empty now s y ts' hts2'
  have hlen : ts'.length = ts.length := hperm.length_eq.symm
  have hsum : (ts'.map hold_hours).sum = (ts.map hold_hours).sum :=
    ((hperm.map hold_hours).sum_eq).symm
  have hle : (getStats (record_many_apply now emptyPerfData ts) s y).winning_trades
      ≤ (getStats (record_many_apply now emptyPerfData ts) s y).total_trades := by
    rw [e1, e2]
    exact List.countP_le_length _
  refine ⟨record_many_eq_apply now ts (fun t ht => (hts t ht).2.2) _, e1, hle,
    by positivity, ?_, e3, by rw [f1, e1, hlen], by rw [f3, e3, hlen, hsum]⟩
  by_cases htot : (getStats (record_many_apply now emptyPerfData ts) s y).total_trades = 0
  · simp [htot]
  · rw [div_le_one (by positivity)]
    exact_mod_cast hle

/-- Witness for record_trade_aggregate_mean: two trades for ("S1", "AAPL")
(one winner held 1h, one loser held 2h) recorded in both orders. -/
theorem record_trade_aggregate_mean_witness :
    record_many 0 emptyPerfData
        [⟨"S1", "AAPL", 100, 110, 0, 3600, "long", 1⟩,
         ⟨"S1", "AAPL", 100, 95, 0, 7200, "long", 1⟩]
      = .ok (record_many_apply 0 emptyPerfData
        [⟨"S1", "AAPL", 100, 110, 0, 3600, "long", 1⟩,
         ⟨"S1", "AAPL", 100, 95, 0, 7200, "long", 1⟩]) ∧
    (getStats (record_many_apply 0 emptyPerfData
        [⟨"S1", "AAPL", 100, 110, 0, 3600, "long", 1⟩,
         ⟨"S1", "AAPL", 100, 95, 0, 7200, "long", 1⟩]) "S1" "AAPL").total_trades
      = (([⟨"S1", "AAPL", 100, 110, 0, 3600, "long", 1⟩,
           ⟨"S1", "AAPL", 100, 95, 0, 7200, "long", 1⟩] : List TradeInput)).length ∧
    (getStats (record_many_apply 0 emptyPerfData
        [⟨"S1", "AAPL", 100, 110, 0, 3600, "long", 1⟩,
         ⟨"S1", "AAPL", 100, 95, 0, 7200, "long", 1⟩]) "S1" "AAPL").winning_trades
      ≤ (getStats (record_many_apply 0 emptyPerfData
        [⟨"S1", "AAPL", 100, 110, 0, 3600, "long", 1⟩,
         ⟨"S1", "AAPL", 100, 95, 0, 7200, "long", 1⟩]) "S1" "AAPL").total_trades ∧
    (0 : ℚ) ≤ ((getStats (record_many_apply 0 emptyPerfData
        [⟨"S1", "AAPL", 100, 110, 0, 3600, "long", 1⟩,
         ⟨"S1", "AAPL", 100, 95, 0, 7200, "long", 1⟩]) "S1" "AAPL").winning_trades : ℚ)
        / ((getStats (record_many_apply 0 emptyPerfData
        [⟨"S1", "AAPL", 100, 110, 0, 3600, "long", 1⟩,
         ⟨"S1", "AAPL", 100, 95, 0, 7200, "long", 1⟩]) "S1" "AAPL").total_trades : ℚ) ∧
    ((getStats (record_many_apply 0 emptyPerfData
        [⟨"S1", "AAPL", 100, 110, 0, 3600, "long", 1⟩,
         ⟨"S1", "AAPL", 100, 95, 0, 7200, "long", 1⟩]) "S1" "AAPL").winning_trades : ℚ)
        / ((getStats (record_many_apply 0 emptyPerfData
        [⟨"S1", "AAPL", 100, 110, 0, 3600, "long", 1⟩,
         ⟨"S1", "AAPL", 100, 95, 0, 7200, "long", 1⟩]) "S1" "AAPL").total_trades : ℚ) ≤ 1 ∧
    (getStats (record_many_apply 0 emptyPerfData
        [⟨"S1", "AAPL", 100, 110, 0, 3600, "long", 1⟩,
         ⟨"S1", "AAPL", 100, 95, 0, 7200, "long", 1⟩]) "S1" "AAPL").avg_hold_time
      = (([⟨"S1", "AAPL", 100, 110, 0, 3600, "long", 1⟩,
           ⟨"S1", "AAPL", 100, 95, 0, 7200, "long", 1⟩] : List TradeInput).map hold_hours).sum
        / ((([⟨"S1", "AAPL", 100, 110, 0, 3600, "long", 1⟩,
              ⟨"S1", "AAPL", 100, 95, 0, 7200, "long", 1⟩] : List TradeInput)).length : ℚ) ∧
    (getStats (record_many_apply 0 emptyPerfData
        [⟨"S1", "AAPL", 100, 95, 0, 7200, "long", 1⟩,
         ⟨"S1", "AAPL", 100, 110, 0, 3600, "long", 1⟩]) "S1" "AAPL").total_trades
      = (getStats (record_many_apply 0 emptyPerfData
        [⟨"S1", "AAPL", 100, 110, 0, 3600, "long", 1⟩,
         ⟨"S1", "AAPL", 100, 95, 0, 7200, "long", 1⟩]) "S1" "AAPL").total_trades ∧
    (getStats (record_many_apply 0 emptyPerfData
        [⟨"S1", "AAPL", 100, 95, 0, 7200, "long", 1⟩,
         ⟨"S1", "AAPL", 100, 110, 0, 3600, "long", 1⟩]) "S1" "AAPL").avg_hold_time
      = (getStats (record_many_apply 0 emptyPerfData
        [⟨"S1", "AAPL", 100, 110, 0, 3600, "long", 1⟩,
         ⟨"S1", "AAPL", 100, 95, 0, 7200, "long", 1⟩]) "S1" "AAPL").avg_hold_time :=
  record_trade_aggregate_mean 0 "S1" "AAPL"
    [⟨"S1", "AAPL", 100, 110, 0, 3600, "long", 1⟩,
     ⟨"S1", "AAPL", 100, 95, 0, 7200, "long", 1⟩]
    [⟨"S1", "AAPL", 100, 95, 0, 7200, "long", 1⟩,
     ⟨"S1", "AAPL", 100, 110, 0, 3600, "long", 1⟩]
    (by
      intro t ht
      fin_cases ht <;> exact ⟨rfl, rfl, by norm_num⟩)
    (List.Perm.swap (⟨"S1", "AAPL", 100, 95, 0, 7200, "long", 1⟩ : TradeInput)
      (⟨"S1", "AAPL", 100, 110, 0, 3600, "long", 1⟩ : TradeInput) [])

theorem decodeNat_natCast (n : ℕ) : decodeNat (Json.num (n : ℚ)) = some n := by
  simp [decodeNat]

theorem decodeTrade_encodeTrade (t : TradeRecord) : decodeTrade (encodeTrade t) = some t := by
  cases t
  rfl

theorem decodeStats_encodeStats (st : AggStats) : decodeStats (encodeStats st) = some st := by
  cases st
  simp [decodeStats, encodeStats, decodeNat_natCast, decodeRat]

theorem decodeTrades_encode (l : List TradeRecord) :
    decodeTrades (l.map encodeTrade) = some l := by
  induction l with
  | nil => rfl
  | cons hd tl ih => simp [decodeTrades, decodeTrade_encodeTrade, ih]

theorem decodeStatsFields_encode (m : List (String × AggStats)) :
    decodeStatsFields (m.map fun kv => (kv.1, encodeStats kv.2)) = some m := by
  induction m with
  | nil => rfl
  | cons hd tl ih => simp [decodeStatsFields, decodeStats_encodeStats, ih]

theorem decodeSymbolStats_encode (m : List (String × AggStats)) :
    decodeSymbolStats (encodeSymbolStats m) = some m := by
  unfold decodeSymbolStats encodeSymbolStats
  exact decodeStatsFields_encode m

theorem decodeStrategyFields_encode (m : List (String × List (String × AggStats))) :
    decodeStrategyFields (m.map fun kv => (kv.1, encodeSymbolStats kv.2)) = some m := by
  induction m with
  | nil => rfl
  | cons hd tl ih => simp [decodeStrategyFields, decodeSymbolStats_encode, ih]

/-- Claim C7: save followed by load is lossless — the loaded document is
exactly the saved one (load's key test accepts every saved document), and
the saved document decodes back to the identical set of TradeRecords and
identical AggregateStats for every (strategy, symbol) pair. -/
theorem save_load_round_trip (d : PerfData) :
    load_data (Store.doc (encodePerfData d)) = encodePerfData d ∧
    decodePerfData (encodePerfData d) = some d := by
  constructor
  · rfl
  · obtain ⟨trades, stats⟩ := d
    unfold encodePerfData decodePerfData decodeStrategyStats
    simp [decodeTrades_encode, decodeStrategyFields_encode]

/-- Claim C8 (counterexample): a parsed store document carrying the
'strategy_stats' key but missing the 'trades' field — structurally invalid
for the persisted layout — is returned by load_data as-is: the ledger does
not initialize to the empty state (it is not even decodable). -/
theorem load_data_accepts_invalid_doc :
    load_data (Store.doc invalidStoreDoc) = invalidStoreDoc ∧
    Json.hasKey invalidStoreDoc "trades" = false ∧
    Json.hasKey emptyDoc "trades" = true ∧
    decodePerfData (load_data (Store.doc invalidStoreDoc)) = none ∧
    load_data (Store.doc invalidStoreDoc) ≠ emptyDoc := by
  refine ⟨rfl, rfl, rfl, rfl, ?_⟩
  intro h
  have h2 := congrArg (fun j => Json.hasKey j "trades") h
  exact absurd h2 (by decide)

/-- Claim C8 (amended): load never fails; when the store is absent,
unreadable, unparsable, or its parsed value fails (or raises inside) the
'strategy_stats' membership test, the ledger initializes to the empty
structure (no trades, no aggregate stats). A parsed value passing the test
is returned as-is, even when it is structurally invalid. -/
theorem load_data_fallback (s : Store)
    (h : ∀ j, s = Store.doc j → membershipTestStrategyStats j ≠ .ok true) :
    load_data s = emptyDoc ∧
    decodePerfData emptyDoc = some emptyPerfData ∧
    emptyPerfData.trades = [] ∧ emptyPerfData.strategy_stats = [] := by
  refine ⟨?_, rfl, rfl, rfl⟩
  cases s with
  | doc j =>
    have hj := h j rfl
    cases hm : membershipTestStrategyStats j with
    | ok b =>
      cases b
      · simp [load_data, hm]
      · exact absurd hm hj
    | error e => simp [load_data, hm]
  | absent => rfl
  | unreadable => rfl
  | unparsable => rfl

/-- Witness for load_data_fallback: an unparsable store file yields the
empty ledger. -/
theorem load_data_fallback_witness :
    load_data Store.unparsable = emptyDoc ∧
    decodePerfData emptyDoc = some emptyPerfData ∧
    emptyPerfData.trades = [] ∧ emptyPerfData.strategy_stats = [] :=
  load_data_fallback Store.unparsable (fun j hj => nomatch hj)

set_option maxHeartbeats 3200000 in
theorem strategy_base_lists_nodup (name : String) : (strategy_base_lists name).Nodup := by
  unfold strategy_base_lists
  split_ifs <;> decide

theorem map_fst_filterMap_sublist {α β γ : Type} (g : α × β → Option (α × γ))
    (hg : ∀ a b, g a = some b → b.1 = a.1) (l : List (α × β)) :
    ((l.filterMap g).map Prod.fst).Sublist (l.map Prod.fst) := by
  induction l with
  | nil => simp
  | cons hd tl ih =>
    cases hgd : g hd with
    | none =>
      simp only [List.filterMap_cons, hgd, List.map_cons]
      exact ih.cons hd.1
    | some b =>
      simp only [List.filterMap_cons, hgd, List.map_cons]
      rw [hg hd b hgd]
      exact ih.cons₂ hd.1

theorem perf_keys_sublist (d : PerfData) (name : String) (mt : Nat) :
    ((get_strategy_performance d name mt).map Prod.fst).Sublist
      ((statsFor d name).map Prod.fst) := by
  unfold get_strategy_performance
  refine map_fst_filterMap_sublist _ (fun a b hab => ?_) (statsFor d name)
  by_cases hc : mt ≤ a.2.total_trades
  · rw [if_pos hc] at hab
    simp only [Option.some.injEq] at hab
    rw [← hab]
  · rw [if_neg hc] at hab
    cases hab

theorem get_top_performers_nodup (d : PerfData) (name : String) (count mt : Nat)
    (hkeys : ((statsFor d name).map Prod.fst).Nodup) :
    (get_top_performers d name count mt).Nodup := by
  unfold get_top_performers
  by_cases hP : (get_strategy_performance d name mt).isEmpty
  · simp [hP]
  · simp only [hP, Bool.false_eq_true, if_false]
    have h1 : ((get_strategy_performance d name mt).map Prod.fst).Nodup :=
      hkeys.sublist (perf_keys_sublist d name mt)
    have h2 : (((get_strategy_performance d name mt).mergeSort fun x y =>
          decide (y.2.performance_score ≤ x.2.performance_score)).map Prod.fst).Nodup := by
      refine (List.Perm.nodup_iff ?_).mpr h1
      exact (List.mergeSort_perm _ _).map Prod.fst
    exact h2.sublist ((List.take_sublist _ _).map Prod.fst)

theorem map_fst_map_pair {α β : Type} (f : α → β) (l : List α) :
    (l.map fun a => (a, f a)).map (·.1) = l := by
  induction l with
  | nil => rfl
  | cons hd tl ih => simp [ih]

theorem filter_length_split {α : Type} (p : α → Bool) (l : List α) :
    (l.filter p).length + (l.filter fun a => !(p a)).length = l.length := by
  induction l with
  | nil => rfl
  | cons hd tl ih =>
    by_cases h : p hd <;> simp [List.filter_cons, h] <;> omega

theorem quality_based_selection_contract (strategy_name : String) (base_list : List String)
    (tc : Nat) (jit : String → ℚ) (hbase : base_list.Nodup) :
    (_quality_based_selection strategy_name base_list tc jit).Nodup ∧
    (_quality_based_selection strategy_name base_list tc jit).length ≤ tc ∧
    (tc ≤ base_list.length →
      (_quality_based_selection strategy_name base_list tc jit).length = tc) := by
  unfold _quality_based_selection
  set qs := base_list.map fun stock =>
    (stock, _calculate_quality_score stock strategy_name (jit stock)) with hqs
  set sorted := qs.mergeSort fun x y => decide (y.2 ≤ x.2) with hsorted
  have hfst : qs.map (·.1) = base_list := by
    rw [hqs]
    exact map_fst_map_pair _ base_list
  have hperm : (sorted.map (·.1)).Perm base_list := by
    rw [← hfst, hsorted]
    exact (List.mergeSort_perm qs _).map _
  have hnodup : (sorted.map (·.1)).Nodup := hperm.nodup_iff.mpr hbase
  have hlen : ((sorted.take tc).map (·.1)).length = min tc base_list.length := by
    rw [List.length_map, List.length_take, hsorted, List.length_mergeSort, hqs,
      List.length_map]
  refine ⟨hnodup.sublist ((List.take_sublist tc sorted).map _), ?_, fun htc => ?_⟩
  · rw [hlen]
    omega
  · rw [hlen]
    omega

theorem performance_based_selection_contract (strategy_name : String)
    (base_list top_performers : List String) (tc : Nat) (jit : String → ℚ)
    (hbase : base_list.Nodup) (htp : top_performers.Nodup) :
    (_performance_based_selection strategy_name base_list top_performers tc jit).Nodup ∧
    (_performance_based_selection strategy_name base_list top_performers tc jit).length ≤ tc ∧
    (tc ≤ base_list.length →
      (_performance_based_selection strategy_name base_list top_performers tc jit).length = tc) := by
  unfold _performance_based_selection
  set sel := top_performers.take (min top_performers.length (tc / 2)) with hsel
  set cand := base_list.filter (fun stock => decide (stock ∉ sel)) with hcand
  set qs := cand.map (fun stock =>
    (stock, _calculate_quality_score stock strategy_name (jit stock))) with hqs
  set sorted := qs.mergeSort (fun x y => decide (y.2 ≤ x.2)) with hsorted
  set fill := (sorted.take (tc - sel.length)).map (·.1) with hfill
  have hselN : sel.Nodup := htp.sublist (List.take_sublist _ _)
  have hcandN : cand.Nodup := hbase.filter _
  have hqsfst : qs.map (·.1) = cand := by
    rw [hqs]
    exact map_fst_map_pair _ cand
  have hpermfill : (sorted.map (·.1)).Perm cand := by
    rw [← hqsfst, hsorted]
    exact (List.mergeSort_perm qs _).map _
  have hfillN : fill.Nodup := by
    rw [hfill]
    exact (hpermfill.nodup_iff.mpr hcandN).sublist ((List.take_sublist _ _).map _)
  have hdisj : sel.Disjoint fill := by
    intro a ha haf
    have h1 : a ∈ sorted.map (·.1) :=
      (((List.take_sublist _ _).map (fun x : String × ℚ => x.1)).subset) (hfill ▸ haf)
    have h2 : a ∈ cand := hpermfill.mem_iff.mp h1
    rw [hcand] at h2
    exact of_decide_eq_true (List.mem_filter.mp h2).2 ha
  have happN : (sel ++ fill).Nodup := hselN.append hfillN hdisj
  have hsellen : sel.length = min top_performers.length (tc / 2) := by
    rw [hsel, List.length_take]
    omega
  have hfilllen : fill.length = min (tc - sel.length) cand.length := by
    rw [hfill, List.length_map, List.length_take, hsorted, List.length_mergeSort, hqs,
      List.length_map]
  have hreslen : ((sel ++ fill).take tc).length = min tc (sel.length + fill.length) := by
    rw [List.length_take, List.length_append]
  have hsplit : (base_list.filter fun s => decide (s ∈ sel)).length + cand.length
      = base_list.length := by
    have hcand' : cand = base_list.filter fun s => !(decide (s ∈ sel)) := by
      rw [hcand]
      congr 1
      funext s
      simp [decide_not]
    rw [hcand']
    exact filter_length_split _ base_list
  have hinsel : (base_list.filter fun s => decide (s ∈ sel)).length ≤ sel.length := by
    refine (List.subperm_of_subset (hbase.filter _) ?_).length_le
    intro x hx
    exact of_decide_eq_true (List.mem_filter.mp hx).2
  have hds : tc / 2 ≤ tc := Nat.div_le_self tc 2
  refine ⟨happN.sublist (List.take_sublist _ _), ?_, fun htc => ?_⟩
  · rw [hreslen]
    omega
  · rw [hreslen]
    omega

/-- Claim C6: get_optimized_stock_list returns an ordered sequence with no
duplicates, of length at most target_count, and of length exactly
target_count whenever the strategy's eligible universe (its
base_candidate_list) has at least target_count symbols. The hypothesis that
the tracker's per-strategy stats dict has no duplicate symbol keys holds for
every Python dict state. -/
theorem get_optimized_stock_list_contract (d : PerfData) (name : String) (tc : Nat)
    (jit : String → ℚ) (hkeys : ((statsFor d name).map Prod.fst).Nodup) :
    (get_optimized_stock_list d name (some tc) jit).Nodup ∧
    (get_optimized_stock_list d name (some tc) jit).length ≤ tc ∧
    (tc ≤ (strategy_base_lists name).length →
      (get_optimized_stock_list d name (some tc) jit).length = tc) := by
  unfold get_optimized_stock_list
  simp only [Option.getD_some]
  by_cases hbranch : tc / 2 ≤ (get_top_performers d name (tc * 2)).length
  · rw [if_pos hbranch]
    exact performance_based_selection_contract name (strategy_base_lists name)
      (get_top_performers d name (tc * 2)) tc jit (strategy_base_lists_nodup name)
      (get_top_performers_nodup d name (tc * 2) 3 hkeys)
  · rw [if_neg hbranch]
    exact quality_based_selection_contract name (strategy_base_lists name) tc jit
      (strategy_base_lists_nodup name)

/-- Witness for get_optimized_stock_list_contract: the empty tracker and
the VWAP strategy (base list of 8 symbols) at target_count 3. -/
theorem get_optimized_stock_list_contract_witness :
    ((statsFor emptyPerfData "VWAP Mean Reversion").map Prod.fst).Nodup ∧
    ((get_optimized_stock_list emptyPerfData "VWAP Mean Reversion" (some 3) fun _ => 0).Nodup ∧
     (get_optimized_stock_list emptyPerfData "VWAP Mean Reversion" (some 3) fun _ => 0).length ≤ 3 ∧
     (3 ≤ (strategy_base_lists "VWAP Mean Reversion").length →
       (get_optimized_stock_list emptyPerfData "VWAP Mean Reversion" (some 3)
         fun _ => 0).length = 3)) :=
  ⟨by simp [statsFor, lookupA, emptyPerfData],
   get_optimized_stock_list_contract emptyPerfData "VWAP Mean Reversion" 3 (fun _ => 0)
     (by simp [statsFor, lookupA, emptyPerfData])⟩
